import Mathlib

/-!
# Verification of the financial report reconciliation core

Shallow embedding of the actual-vs-budget reconciliation code of the
xero-mcp-server repository (the `periodic-actual-vs-budget` /
`actual-vs-budget` tools and their helpers), together with proofs and
refutations of the specified properties.

Conventions of the embedding:
* JavaScript values that can sit in a report cell are modelled by `JsVal`
  (a string or a number); a missing / `null` / `undefined` cell value is
  `Option.none`.
* JavaScript numbers are modelled by `ℚ`.  A `NaN` produced by
  `parseFloat` is modelled by `Option.none`; note `JSON.stringify`
  serialises `NaN` as `null`, so a `none` in a final series is exactly a
  `null` in the tool's output.
* JavaScript `Record<string, T>` objects are modelled by association
  lists with insertion-ordered keys, `Set` by an insertion-ordered
  de-duplication function.
-/

/-- A JavaScript value occurring in a report cell: a string or a number. -/
inductive JsVal where
  | str (s : String)
  | num (q : ℚ)
deriving DecidableEq, Repr

/-- A report cell: `{ value?: string | number }`.  `none` models a
`null`/`undefined`/absent `value` field. -/
structure Cell where
  value : Option JsVal
deriving DecidableEq, Repr

/-- A child row of a section: `{ rowType, cells }`. -/
structure DataRow where
  rowType : String
  cells : List Cell
deriving DecidableEq, Repr

/-- A top-level report row: `{ rowType, title?, cells, rows }`.  The code
only ever descends one level, so a two-level row model is faithful to
every access the source performs. -/
structure SectionRow where
  rowType : String
  title : Option String
  cells : List Cell
  rows : List DataRow
deriving DecidableEq, Repr

/-- A column descriptor of a report: `{ date?, title? }` (used by the
summary-row variant of `extractPeriodValues` for period labels). -/
structure Column where
  date : Option String
  title : Option String
deriving DecidableEq, Repr

/-- A report as accessed by the code: `{ columns?, rows }`.  An absent
`columns` array behaves exactly like an empty one (every index lookup
falls through to the default label), so it is modelled as a plain list. -/
structure Report where
  columns : List Column
  rows : List SectionRow
deriving DecidableEq, Repr

/-! ## String machinery of the JavaScript runtime -/

/-- Whitespace as trimmed by `String.prototype.trim` (the ASCII cases the
report titles can contain). -/
def isJsSpace (c : Char) : Bool :=
  c == ' ' || c == '\t' || c == '\n' || c == '\r'

/-- Model of `String.prototype.trim`. -/
def jsTrim (s : String) : String :=
  String.mk (((s.data.dropWhile isJsSpace).reverse.dropWhile isJsSpace).reverse)

/-- Model of `String.prototype.toLowerCase` (ASCII, which covers report titles). -/
def jsLower (s : String) : String :=
  String.mk (s.data.map Char.toLower)

/-- Model of `String.prototype.toUpperCase` (ASCII). -/
def jsUpper (s : String) : String :=
  String.mk (s.data.map Char.toUpper)

/-- Does `l` contain `p` as a contiguous sublist?  Executable model of
`String.prototype.includes` on the character lists. -/
def containsSub (p : List Char) : List Char → Bool
  | [] => p.isEmpty
  | c :: cs => p.isPrefixOf (c :: cs) || containsSub p cs

/-- Model of `s.includes(pat)`. -/
def jsIncludes (s pat : String) : Bool :=
  containsSub pat.data s.data

/-- Model of `String(val).replace(/[^0-9.-]+/g, "")`: keep only digits, dots and
minus signs. -/
def stripNumeric (s : String) : String :=
  String.mk (s.data.filter (fun c => c.isDigit || c == '.' || c == '-'))

/-- Digit run to a natural number. -/
def digitsToNat (ds : List Char) : Nat :=
  ds.foldl (fun n c => n * 10 + (c.toNat - '0'.toNat)) 0

/-- Exponent part of a JavaScript float literal: optional sign then
digits; an exponent with no digits is ignored (as `parseFloat`
backtracks over it). -/
def parseExp (cs : List Char) : Int :=
  let (sgn, cs) : Int × List Char :=
    match cs with
    | '-' :: t => (-1, t)
    | '+' :: t => (1, t)
    | _ => (1, cs)
  let ds := cs.takeWhile Char.isDigit
  if ds.isEmpty then 0 else sgn * (digitsToNat ds : Int)

/-- Model of `parseFloat`: skip leading whitespace, optional sign, integer digits,
optional fraction, optional exponent; `none` models the `NaN` returned
when no digit is found. -/
def parseFloatQ (s : String) : Option ℚ :=
  let cs := s.data.dropWhile isJsSpace
  let (sgn, cs) : ℚ × List Char :=
    match cs with
    | '-' :: t => (-1, t)
    | '+' :: t => (1, t)
    | _ => (1, cs)
  let ip := cs.takeWhile Char.isDigit
  let cs1 := cs.dropWhile Char.isDigit
  let fp :=
    match cs1 with
    | '.' :: t => t.takeWhile Char.isDigit
    | _ => []
  let rest :=
    match cs1 with
    | '.' :: t => t.dropWhile Char.isDigit
    | _ => cs1
  if ip.isEmpty && fp.isEmpty then none
  else
    let mant : ℚ := (digitsToNat ip : ℚ) + (digitsToNat fp : ℚ) / (10 : ℚ) ^ fp.length
    let e : Int :=
      match rest with
      | 'e' :: t => parseExp t
      | 'E' :: t => parseExp t
      | _ => 0
    some (sgn * mant * (10 : ℚ) ^ e)

/-- Decimal digits of a natural number, most significant first (fuel
variant so the definition is structurally recursive and evaluable). -/
def natDigitsAux : Nat → Nat → List Char
  | 0, _ => []
  | fuel + 1, n =>
    if n < 10 then [Char.ofNat (48 + n)]
    else natDigitsAux fuel (n / 10) ++ [Char.ofNat (48 + n % 10)]

/-- Decimal rendering of a natural number. -/
def natToString (n : Nat) : String :=
  String.mk (natDigitsAux (n + 1) n)

/-- Left-pad a digit list with zeros to length `k`. -/
def padZeros (ds : List Char) (k : Nat) : List Char :=
  List.replicate (k - ds.length) '0' ++ ds

/-- Model of `String(x)` for a JavaScript number, for the values report cells can
hold: integers render as decimal integers, terminating decimals with the
shortest decimal expansion (the search bound 40 covers every decimal a
64-bit float can print).  A rational with no terminating expansion cannot
arise from a JavaScript number; it renders as `num/den`. -/
def renderRat (q : ℚ) : String :=
  let sign := if q.num < 0 then "-" else ""
  if q.den = 1 then sign ++ natToString q.num.natAbs
  else
    match (List.range 40).find? (fun k => (10 : Nat) ^ k % q.den == 0) with
    | some k =>
      let ds := (natToString (q.num.natAbs * ((10 : Nat) ^ k / q.den))).data
      let padded := padZeros ds (k + 1)
      let n := padded.length
      sign ++ String.mk (padded.take (n - k)) ++ "." ++ String.mk (padded.drop (n - k))
    | none => sign ++ natToString q.num.natAbs ++ "/" ++ natToString q.den

/-- Model of `String(v)` on a cell value. -/
def jsValToString : JsVal → String
  | .str s => s
  | .num q => renderRat q

/-! ## Section-level extraction (`extractPeriodValues`, section-sum
variant) -/

/-- Model of `row.cells[i]?.value`: an out-of-range index and a `null` value both
yield `none` (`undefined`/`null`). -/
def cellValueAt (r : DataRow) (i : Nat) : Option JsVal :=
  match r.cells[i]? with
  | some c => c.value
  | none => none

/-- The numeric contribution of one value cell:
`val !== undefined && val !== null && val !== "" ?
 parseFloat(String(val).replace(/[^0-9.-]+/g, "")) : 0`,
followed by `isNaN(num) ? 0 : num`. -/
def cellNum (v : Option JsVal) : ℚ :=
  match v with
  | none => 0
  | some v =>
    if v = .str "" then 0
    else (parseFloatQ (stripNumeric (jsValToString v))).getD 0

/-- The period count inferred from a section's child rows: the first row
with more than one cell determines it (cell count minus the label cell);
`0` if no such row exists. -/
def inferPeriodCount (rows : List DataRow) : Nat :=
  match rows.find? (fun r => decide (1 < r.cells.length)) with
  | some r => r.cells.length - 1
  | none => 0

/-- Column sum of the value cells at period `i` over the contributing
rows. -/
def sumAt (rows : List DataRow) (i : Nat) : ℚ :=
  (rows.map (fun r => cellNum (cellValueAt r (i + 1)))).sum

/-- Model of `extractPeriodValues(section)` (section-sum variant): infer the
period count from the first multi-cell row, sum every row whose cell
count is exactly `periodCount + 1`, and return all-null only when no row
contributed. -/
def extractPeriodValues (s : SectionRow) : List (Option ℚ) :=
  let pc := inferPeriodCount s.rows
  if pc = 0 then []
  else
    let contrib := s.rows.filter (fun r => r.cells.length == pc + 1)
    if contrib.isEmpty then List.replicate pc none
    else (List.range pc).map (fun i => some (sumAt contrib i))

/-! ## Summary-row extraction (`extractPeriodValues`, summary-row
variant) and the period-aligned comparison -/

/-- JavaScript truthiness of a cell value: `undefined`/`null`, `0` and
`""` are falsy. -/
def jsTruthy : Option JsVal → Bool
  | none => false
  | some (.str s) => decide (s ≠ "")
  | some (.num q) => decide (q ≠ 0)

/-- The summary-row predicate: `rowType === "Summary"`, or the first
cell's value is a (truthy) string whose lower-casing contains
`"total"`. -/
def isSummaryRow (r : DataRow) : Bool :=
  r.rowType == "Summary" ||
    (match cellValueAt r 0 with
     | some (.str s) => decide (s ≠ "") && jsIncludes (jsLower s) "total"
     | _ => false)

/-- Model of `o || d` on an optional string: an absent or empty string falls
through to the default. -/
def jsOrStr (o : Option String) (d : String) : String :=
  match o with
  | some s => if s = "" then d else s
  | none => d

/-- Period label for column `i`:
`report.columns[i].date || report.columns[i].title || "Period i"`, with
the default used when the columns array is missing or too short. -/
def periodLabelAt (cols : List Column) (i : Nat) : String :=
  let dflt := "Period " ++ natToString i
  match cols[i]? with
  | some col => jsOrStr col.date (jsOrStr col.title dflt)
  | none => dflt

/-- The value emitted for summary cell `i`:
`cells[i]?.value ? parseFloat(String(value).replace(/[^0-9.-]+/g, "")) : null`.
The guard is JavaScript truthiness, so `0` and `""` yield `null`. -/
def summaryCellValue (r : DataRow) (i : Nat) : Option ℚ :=
  match cellValueAt r i with
  | some v => if jsTruthy (some v) then parseFloatQ (stripNumeric (jsValToString v)) else none
  | none => none

/-- Model of `result[k] = v` on a JavaScript object modelled as an
insertion-ordered association list: an existing key keeps its position
and gets the new value, a new key is appended. -/
def recSet (m : List (String × Option ℚ)) (k : String) (v : Option ℚ) :
    List (String × Option ℚ) :=
  if m.any (fun p => p.1 == k) then m.map (fun p => if p.1 == k then (k, v) else p)
  else m ++ [(k, v)]

/-- Model of `m[k]` (an absent key reads as `undefined`, conflated with `null`). -/
def recGet (m : List (String × Option ℚ)) (k : String) : Option ℚ :=
  match m.find? (fun p => p.1 == k) with
  | some p => p.2
  | none => none

/-- Model of `k in m`. -/
def recHas (m : List (String × Option ℚ)) (k : String) : Bool :=
  m.any (fun p => p.1 == k)

/-- Model of `Object.keys(m)`. -/
def recKeys (m : List (String × Option ℚ)) : List String :=
  m.map Prod.fst

/-- The section lookup of the summary-row variant:
`rowType === "Section"`, the title is a string and its lower-casing
contains the lower-cased query. -/
def findSection (report : Report) (sectionTitle : String) : Option SectionRow :=
  report.rows.find? (fun row =>
    row.rowType == "Section" &&
      (match row.title with
       | some t => jsIncludes (jsLower t) (jsLower sectionTitle)
       | none => false))

/-- Model of `extractPeriodValues(report, sectionTitle)` (summary-row variant):
locate the section, locate its summary/total row, and record one value
per summary cell from index 1 on, keyed by the column label. -/
def extractPeriodValuesV1 (report : Report) (sectionTitle : String) :
    List (String × Option ℚ) :=
  match findSection report sectionTitle with
  | none => []
  | some sec =>
    match sec.rows.find? isSummaryRow with
    | none => []
    | some summaryRow =>
      (List.range' 1 (summaryRow.cells.length - 1)).foldl
        (fun result i =>
          recSet result (periodLabelAt report.columns i) (summaryCellValue summaryRow i))
        []

/-- Insertion-ordered de-duplication with an accumulator of already-seen
elements: the model of iterating a JavaScript `Set`. -/
def dedupAux (seen : List String) : List String → List String
  | [] => []
  | x :: xs => if x ∈ seen then dedupAux seen xs else x :: dedupAux (x :: seen) xs

/-- Model of `Array.from(new Set(l))`. -/
def jsSetOf (l : List String) : List String :=
  dedupAux [] l

/-- Model of `Array.from(new Set([...Object.keys(A), ...Object.keys(B)]))`. -/
def allPeriods (A B : List (String × Option ℚ)) : List String :=
  jsSetOf (recKeys A ++ recKeys B)

/-- One record of the aligned comparison, with exactly the fields the
object literal of the code creates. -/
structure ComparisonEntry where
  period : String
  actual : Option ℚ
  budgeted : Option ℚ
deriving DecidableEq, Repr

/-- The own-property keys of the comparison object literal
`\x7b period, actual, budgeted \x7d`, in creation order: these are the keys
`JSON.stringify` emits for each record. -/
def comparisonEntryKeys : List String :=
  ["period", "actual", "budgeted"]

/-- The aligned comparison: one record per period of the label union,
looking each series up by label (`period in m ? m[period] : null`). -/
def comparison (A B : List (String × Option ℚ)) : List ComparisonEntry :=
  (allPeriods A B).map (fun p =>
    ⟨p, if recHas A p then recGet A p else none,
        if recHas B p then recGet B p else none⟩)

/-! ## Section resolution of the all-sections variant -/

/-- Titles of the section rows of a report:
`rows.filter(r => r.rowType === "Section" && typeof r.title === "string").map(r => r.title)`. -/
def listSectionTitles (rows : List SectionRow) : List String :=
  (rows.filter (fun r => r.rowType == "Section" && r.title.isSome)).map
    (fun r => r.title.getD "")

/-- The sentinel test:
`!metric || metric.trim().toUpperCase() === "ALL" || metric.trim() === "*"`. -/
def isAllMetric (metric : String) : Bool :=
  metric == "" || jsUpper (jsTrim metric) == "ALL" || jsTrim metric == "*"

/-- The per-title match of the resolver's single filter pass:
`title.trim().toLowerCase() === lower || title.trim().toLowerCase().includes(lower)`. -/
def sectionMatches (lower : String) (title : String) : Bool :=
  jsLower (jsTrim title) == lower || jsIncludes (jsLower (jsTrim title)) lower

/-- Escaping applied by `JSON.stringify` to a string (the cases report
titles can contain). -/
def jsonEscape (s : String) : String :=
  String.mk (s.data.foldr (fun c acc =>
    if c = '"' then '\\' :: '"' :: acc
    else if c = '\\' then '\\' :: '\\' :: acc
    else if c = '\n' then '\\' :: 'n' :: acc
    else if c = '\r' then '\\' :: 'r' :: acc
    else if c = '\t' then '\\' :: 't' :: acc
    else c :: acc) [])

/-- Comma-join. -/
def joinComma : List String → String
  | [] => ""
  | [s] => s
  | s :: rest => s ++ "," ++ joinComma rest

/-- Model of `JSON.stringify` of an array of strings. -/
def jsonStringifyStrings (l : List String) : String :=
  "[" ++ joinComma (l.map (fun s => "\"" ++ jsonEscape s ++ "\"")) ++ "]"

/-- The apostrophe character (kept out of string literals). -/
def apos : String :=
  String.singleton (Char.ofNat 39)

/-- The not-found message the tool returns, carrying both title lists. -/
def notFoundMsg (metric : String) (actualTitles budgetTitles : List String) : String :=
  "No section found for metric " ++ apos ++ metric ++ apos ++
    ".\nAvailable actuals sections: " ++ jsonStringifyStrings actualTitles ++
    "\nAvailable budget sections: " ++ jsonStringifyStrings budgetTitles

/-- Section resolution of the all-sections variant: the union of both
reports' titles, filtered by `sectionMatches` unless the sentinel asks
for everything; an empty filter result returns the diagnostic message
(the code path that returns instead of throwing). -/
def resolveSections (metric : String) (actualRows budgetRows : List SectionRow) :
    Except String (List String) :=
  let actualTitles := listSectionTitles actualRows
  let budgetTitles := listSectionTitles budgetRows
  let allTitles := jsSetOf (actualTitles ++ budgetTitles)
  if isAllMetric metric then Except.ok allTitles
  else
    let lower := jsLower (jsTrim metric)
    let f := allTitles.filter (sectionMatches lower)
    if f.isEmpty then Except.error (notFoundMsg metric actualTitles budgetTitles)
    else Except.ok f

/-- Modelled from the spec (§4.2 SectionResolver), for comparison with
`resolveSections`: normalize query and titles, try exact match first,
and only if no exact match exists fall back to bidirectional substring
containment (title contains query OR query contains title). -/
def resolveSectionsSpec (metric : String) (titles : List String) : List String :=
  let q := jsLower (jsTrim metric)
  let exact := titles.filter (fun t => jsLower (jsTrim t) == q)
  if exact.isEmpty then
    titles.filter (fun t =>
      jsIncludes (jsLower (jsTrim t)) q || jsIncludes q (jsLower (jsTrim t)))
  else exact

/-! ## The decumulating reconciler -/

/-- Section lookup of the decumulating variant: exact (case-insensitive)
title equality, then keep only the `"Row"` children. -/
def getSectionRows (report : Report) (metric : String) : List DataRow :=
  match report.rows.find? (fun row =>
      row.rowType == "Section" &&
        (match row.title with
         | some t => jsLower t == jsLower metric
         | none => false)) with
  | some sec => sec.rows.filter (fun r => r.rowType == "Row")
  | none => []

/-- The same lookup on a possibly-absent report (`budgetResp.result?.[0]`). -/
def getSectionRowsO (report : Option Report) (metric : String) : List DataRow :=
  match report with
  | some r => getSectionRows r metric
  | none => []

/-- Model of `getPeriodValues(row)`: numbers pass through, strings go through
`parseFloat` (a `none` models the `NaN` of an unparsable string), a
missing value contributes `0`. -/
def getPeriodValues (r : DataRow) : List (Option ℚ) :=
  r.cells.map (fun c =>
    match c.value with
    | some (.num q) => some q
    | some (.str s) => parseFloatQ s
    | none => some 0)

/-- Model of `x || 0` on a JavaScript number: `NaN` (and `0`) are falsy. -/
def jsOrZero : Option ℚ → ℚ
  | none => 0
  | some q => q

/-- Addition with `NaN` absorption: `x + NaN = NaN`. -/
def jsAddNaN (x : ℚ) (v : Option ℚ) : Option ℚ :=
  v.map (fun q => x + q)

/-- One row of the accumulation loop
`vals.forEach((v, i) => cumulative[i] = (cumulative[i] || 0) + v)`:
slots past the row keep their value, slots the row covers are
`(cumulative[i] || 0) + v` (an out-of-range read is `undefined`, falsy
like `NaN`). -/
def addRowVals (cum vals : List (Option ℚ)) : List (Option ℚ) :=
  (List.range (max cum.length vals.length)).map (fun i =>
    match vals[i]? with
    | some v => jsAddNaN (jsOrZero ((cum[i]?).join)) v
    | none => (cum[i]?).join)

/-- The cumulative array summed over the section's rows. -/
def accumulateRows (rows : List DataRow) : List (Option ℚ) :=
  rows.foldl (fun cum r => addRowVals cum (getPeriodValues r)) []

/-- Model of `a - b` with `NaN` propagation: defined only when both operands are
numbers. -/
def jsSub (a b : Option ℚ) : Option ℚ :=
  match a, b with
  | some a, some b => some (a - b)
  | _, _ => none

/-- The decumulation step
`cumulative.map((v, i, arr) => i === 0 ? v : v - arr[i - 1])`. -/
def decumulate (arr : List (Option ℚ)) : List (Option ℚ) :=
  (List.range arr.length).map (fun i =>
    if i = 0 then (arr[0]?).join
    else jsSub ((arr[i]?).join) ((arr[i - 1]?).join))

/-- Model of `String(cell.value)` where the value may be absent. -/
def jsValOptToString : Option JsVal → String
  | some v => jsValToString v
  | none => "undefined"

/-- Period labels from the report's `Header` row, empty when the report
has no rows or no header. -/
def headerLabels (report : Report) : List String :=
  if report.rows.isEmpty then []
  else
    match report.rows.find? (fun r => r.rowType == "Header") with
    | some h => h.cells.map (fun c => jsValOptToString c.value)
    | none => []

/-- One record of the decumulating reconciler's output. -/
structure ResultRecord where
  period : String
  actual : Option ℚ
  budgeted : Option ℚ
deriving DecidableEq, Repr

/-- The success-path computation of the decumulating reconciler: extract
and de-cumulate the actuals, sum the budget rows, and pair both with the
header labels (`actualPeriodValues[i] ?? null`). -/
def buildRecordsV2 (metric : String) (actualReport : Report)
    (budgetReport : Option Report) : List ResultRecord :=
  let actualRows := getSectionRows actualReport metric
  let actualPeriodValues := decumulate (accumulateRows actualRows)
  let budgetValues := accumulateRows (getSectionRowsO budgetReport metric)
  let labels := headerLabels actualReport
  let periodsArr :=
    if labels.isEmpty then
      (List.range actualPeriodValues.length).map (fun i => "Period " ++ natToString (i + 1))
    else labels
  periodsArr.enum.map (fun p =>
    ⟨p.2, (actualPeriodValues[p.1]?).join, (budgetValues[p.1]?).join⟩)

/-- The decumulating reconciler over the two fetch results: an error on
the actuals fetch returns
`Error fetching actuals: <message>` before the budget result is looked
at; an error on the budget fetch returns
`Error fetching budget: <message>`; only when both succeeded are
comparison records computed (the `.ok` payload the tool serializes). -/
def reconcileV2 (metric : String) (actualResp : Except String Report)
    (budgetResp : Except String (List Report)) : Except String (List ResultRecord) :=
  match actualResp with
  | .error e => .error ("Error fetching actuals: " ++ e)
  | .ok actualReport =>
    match budgetResp with
    | .error e => .error ("Error fetching budget: " ++ e)
    | .ok budgets => .ok (buildRecordsV2 metric actualReport budgets.head?)

/-- Null-strict addition, used when prefix-summing a series. -/
def optAdd (a b : Option ℚ) : Option ℚ :=
  match a, b with
  | some a, some b => some (a + b)
  | _, _ => none

/-- Prefix sum of the first `i + 1` entries of a series, `none` as soon
as a `none` entry is involved (the spec's prefix-summing probe). -/
def optPrefixSum (l : List (Option ℚ)) (i : Nat) : Option ℚ :=
  (l.take (i + 1)).foldl optAdd (some 0)

/-! ## Concrete inputs used by the counterexamples and witnesses -/

/-- A report with three period columns (after the label column) whose
matched section's summary row has a single value cell. -/
def c3Report : Report :=
  { columns := [⟨none, some "Account"⟩, ⟨some "2024-01-31", none⟩,
                ⟨some "2024-02-29", none⟩, ⟨some "2024-03-31", none⟩],
    rows := [⟨"Section", some "Revenue", [],
              [⟨"Summary", [⟨some (.str "Total Revenue")⟩, ⟨some (.str "5")⟩]⟩]⟩] }

/-- A matched section with zero child rows. -/
def c7EmptySection : SectionRow :=
  ⟨"Section", some "Income", [], []⟩

/-- A section with one three-cell row (label plus two periods). -/
def c7DemoSection : SectionRow :=
  ⟨"Section", some "Income", [],
    [⟨"Row", [⟨some (.str "Sales")⟩, ⟨some (.str "7")⟩, ⟨some (.str "9")⟩]⟩]⟩

/-- A section with rows `[10, 20]` and `[5, null]` over two periods (the
amounts as the report serialises them; the first cell of each row is the
account label). -/
def c8Section : SectionRow :=
  ⟨"Section", some "Expenses", [],
    [⟨"Row", [⟨some (.str "Rent")⟩, ⟨some (.str "10")⟩, ⟨some (.str "20")⟩]⟩,
     ⟨"Row", [⟨some (.str "Power")⟩, ⟨some (.str "5")⟩, ⟨none⟩]⟩]⟩

/-- A summary row whose single value cell holds the number `0`. -/
def c10SummaryRow : DataRow :=
  ⟨"Summary", [⟨some (.str "Total Sales")⟩, ⟨some (.num 0)⟩]⟩

/-- A report whose matched section's summary row holds a genuine zero. -/
def c10Report : Report :=
  { columns := [⟨none, some "Account"⟩, ⟨some "2024-01-31", none⟩],
    rows := [⟨"Section", some "Sales", [], [c10SummaryRow]⟩] }


/-! ## Insertion-ordered de-duplication: characterisation -/

/-- The function `dedupAux` only inspects membership in the seen accumulator. -/
theorem dedupAux_congr (l : List String) : ∀ s₁ s₂, (∀ a ∈ l, (a ∈ s₁ ↔ a ∈ s₂)) →
    dedupAux s₁ l = dedupAux s₂ l := by
  induction l with
  | nil => intro s₁ s₂ _; rfl
  | cons x xs ih =>
    intro s₁ s₂ h
    simp only [dedupAux]
    by_cases hx : x ∈ s₁
    · rw [if_pos hx, if_pos ((h x (List.mem_cons_self x xs)).mp hx)]
      exact ih _ _ (fun a ha => h a (List.mem_cons_of_mem x ha))
    · rw [if_neg hx, if_neg (fun hc => hx ((h x (List.mem_cons_self x xs)).mpr hc))]
      congr 1
      exact ih _ _ (fun a ha => by
        simp only [List.mem_cons]
        exact or_congr Iff.rfl (h a (List.mem_cons_of_mem x ha)))

/-- Splitting `dedupAux` over an append: the first part is processed
with the original accumulator, the second with the first part added. -/
theorem dedupAux_append (xs : List String) : ∀ ys seen,
    dedupAux seen (xs ++ ys) = dedupAux seen xs ++ dedupAux (xs ++ seen) ys := by
  induction xs with
  | nil => intro ys seen; rfl
  | cons x xs ih =>
    intro ys seen
    simp only [List.cons_append, dedupAux, List.append_eq]
    by_cases hx : x ∈ seen
    · simp only [hx, if_true]
      rw [ih ys seen]
      congr 1
      refine dedupAux_congr ys _ _ (fun a _ => ?_)
      simp only [List.mem_cons, List.mem_append]
      constructor
      · exact fun h => Or.inr h
      · rintro (rfl | h)
        · exact Or.inr hx
        · exact h
    · simp only [hx, if_false]
      rw [ih ys (x :: seen), List.cons_append]
      congr 2
      refine dedupAux_congr ys _ _ (fun a _ => ?_)
      simp only [List.mem_cons, List.mem_append]
      tauto

/-- On a duplicate-free list, `dedupAux` is a filter against the seen
accumulator. -/
theorem dedupAux_of_nodup (ys : List String) : ∀ seen, ys.Nodup →
    dedupAux seen ys = ys.filter (fun y => decide (y ∉ seen)) := by
  induction ys with
  | nil => intro seen _; rfl
  | cons y ys ih =>
    intro seen hnd
    have hy : y ∉ ys := (List.nodup_cons.mp hnd).1
    have hnd' : ys.Nodup := (List.nodup_cons.mp hnd).2
    simp only [dedupAux, List.filter_cons]
    by_cases h : y ∈ seen
    · rw [if_pos h]
      simp only [h, not_true_eq_false, decide_False, if_false]
      exact ih seen hnd'
    · rw [if_neg h]
      simp only [h, not_false_eq_true, decide_True, if_true]
      congr 1
      rw [dedupAux_congr ys (y :: seen) seen (fun a ha => ?_), ih seen hnd']
      simp only [List.mem_cons]
      constructor
      · intro hc
        rcases hc with rfl | hc'
        · exact absurd ha hy
        · exact hc'
      · exact Or.inr

/-- Evaluating `Array.from(new Set(kA ++ kB))` for duplicate-free key lists: the
first list in order, then the second list's keys not already present. -/
theorem jsSetOf_append (kA kB : List String) (hA : kA.Nodup) (hB : kB.Nodup) :
    jsSetOf (kA ++ kB) = kA ++ kB.filter (fun k => decide (k ∉ kA)) := by
  unfold jsSetOf
  rw [dedupAux_append]
  congr 1
  · rw [dedupAux_of_nodup kA [] hA]
    simp
  · rw [dedupAux_of_nodup kB (kA ++ []) hB]
    simp

/-- A key the object does not have reads as `null`. -/
theorem recGet_of_not_recHas (m : List (String × Option ℚ)) (k : String)
    (h : recHas m k = false) : recGet m k = none := by
  unfold recGet
  unfold recHas at h
  rw [List.find?_eq_none.mpr]
  intro p hp hpk
  have : (m.any fun p => p.1 == k) = true := List.any_eq_true.mpr ⟨p, hp, hpk⟩
  rw [h] at this
  exact Bool.false_ne_true this

/-- C2: the aligned comparison enumerates the union of the two series'
period labels, ordered as the first series' labels followed by the
labels appearing only in the second series, in the second series' order;
its length is the cardinality of the label union.  (Key lists of
JavaScript objects are duplicate-free, hence the `Nodup` hypotheses.) -/
theorem comparison_union_order (A B : List (String × Option ℚ))
    (hA : (recKeys A).Nodup) (hB : (recKeys B).Nodup) :
    (comparison A B).map ComparisonEntry.period
        = recKeys A ++ (recKeys B).filter (fun k => decide (k ∉ recKeys A))
      ∧ (comparison A B).length
        = ((recKeys A).toFinset ∪ (recKeys B).toFinset).card := by
  have hmap : (comparison A B).map ComparisonEntry.period = allPeriods A B := by
    unfold comparison
    rw [List.map_map]
    exact List.map_id _
  have hall : allPeriods A B
      = recKeys A ++ (recKeys B).filter (fun k => decide (k ∉ recKeys A)) :=
    jsSetOf_append _ _ hA hB
  refine ⟨hmap.trans hall, ?_⟩
  have hlen : (comparison A B).length = (allPeriods A B).length := by
    simp [comparison]
  have hsub : ((recKeys B).filter (fun k => decide (k ∉ recKeys A))).toFinset
      = (recKeys B).toFinset \ (recKeys A).toFinset := by
    ext a
    simp [List.mem_filter]
  rw [hlen, hall, List.length_append,
    ← List.toFinset_card_of_nodup hA,
    ← List.toFinset_card_of_nodup (hB.filter _),
    hsub,
    ← Finset.card_union_of_disjoint Finset.disjoint_sdiff,
    Finset.union_sdiff_self_eq_union]

/-- Witness for C2 on concrete series. -/
theorem comparison_union_order_witness :
    (comparison [("Jan", some 1), ("Feb", some 2)] [("Feb", some 3), ("Mar", none)]).map
        ComparisonEntry.period = ["Jan", "Feb", "Mar"]
      ∧ (comparison [("Jan", some 1), ("Feb", some 2)] [("Feb", some 3), ("Mar", none)]).length
        = 3 := by
  have h := comparison_union_order [("Jan", some 1), ("Feb", some 2)]
    [("Feb", some 3), ("Mar", none)] (by decide) (by decide)
  constructor
  · rw [h.1]; decide
  · rw [h.2]; decide

/-- C4 counterexample: at a period where actual and budget are both
non-null (actual 5, budget 3) the claim demands a record with a variance
field holding 2, but the record the code produces is exactly
`\x7b period, actual, budgeted \x7d` — `variance` is not among the keys
`JSON.stringify` will emit. -/
theorem comparison_no_variance_counterexample :
    comparison [("Jan", some 5)] [("Jan", some 3)]
        = [⟨"Jan", some 5, some 3⟩]
      ∧ comparisonEntryKeys.contains "variance" = false := by
  exact ⟨rfl, by decide⟩

/-- C4 amended: every produced comparison record carries exactly the
fields period, actual and budgeted (no variance field), the actual and
budgeted fields being the label lookups into the two series. -/
theorem comparison_record_fields (A B : List (String × Option ℚ))
    (e : ComparisonEntry) (he : e ∈ comparison A B) :
    e.actual = recGet A e.period ∧ e.budgeted = recGet B e.period
      ∧ comparisonEntryKeys = ["period", "actual", "budgeted"] := by
  obtain ⟨p, _, rfl⟩ := List.mem_map.mp he
  refine ⟨?_, ?_, rfl⟩
  · by_cases h : recHas A p
    · simp [h]
    · simp only [Bool.not_eq_true] at h
      simp [h, recGet_of_not_recHas A p h]
  · by_cases h : recHas B p
    · simp [h]
    · simp only [Bool.not_eq_true] at h
      simp [h, recGet_of_not_recHas B p h]

/-- Witness for C4's amended statement on a concrete record. -/
theorem comparison_record_fields_witness :
    (⟨"Jan", some 5, some 3⟩ : ComparisonEntry).actual = recGet [("Jan", some 5)] "Jan"
      ∧ (⟨"Jan", some 5, some 3⟩ : ComparisonEntry).budgeted = recGet [("Jan", some 3)] "Jan"
      ∧ comparisonEntryKeys = ["period", "actual", "budgeted"] := by
  have hmem : (⟨"Jan", some 5, some 3⟩ : ComparisonEntry)
      ∈ comparison [("Jan", some 5)] [("Jan", some 3)] := by
    have h : comparison [("Jan", some 5)] [("Jan", some 3)]
        = [⟨"Jan", some 5, some 3⟩] := rfl
    rw [h]
    exact List.mem_singleton_self _
  exact comparison_record_fields _ _ _ hmem

/-- C5: when the metric is a real name (not the `ALL`/`*` sentinel) and
the single-pass filter selects no title, resolution returns (never
throws — the embedding is a total function into `Except`) the
`No section found` failure, and that failure's text carries the full
serialised list of the actuals report's section titles. -/
theorem resolveSections_not_found (metric : String)
    (actualRows budgetRows : List SectionRow)
    (hall : isAllMetric metric = false)
    (hempty : (jsSetOf (listSectionTitles actualRows ++ listSectionTitles budgetRows)).filter
        (sectionMatches (jsLower (jsTrim metric))) = []) :
    resolveSections metric actualRows budgetRows
        = Except.error (notFoundMsg metric (listSectionTitles actualRows)
            (listSectionTitles budgetRows))
      ∧ List.IsInfix (jsonStringifyStrings (listSectionTitles actualRows)).data
          (notFoundMsg metric (listSectionTitles actualRows)
            (listSectionTitles budgetRows)).data := by
  constructor
  · unfold resolveSections
    simp only [hall, Bool.false_eq_true, if_false, hempty, List.isEmpty_nil, if_true]
  · unfold notFoundMsg
    simp only [String.data_append]
    refine ⟨"No section found for metric ".data ++ apos.data ++ metric.data ++ apos.data ++
      ".\nAvailable actuals sections: ".data,
      "\nAvailable budget sections: ".data ++
        (jsonStringifyStrings (listSectionTitles budgetRows)).data, ?_⟩
    simp [List.append_assoc]

/-- Witness for C5: a nonexistent metric against a report with sections
Income and Expenses. -/
theorem resolveSections_not_found_witness :
    resolveSections "Nonexistent Metric"
        [⟨"Section", some "Income", [], []⟩, ⟨"Section", some "Expenses", [], []⟩] []
      = Except.error (notFoundMsg "Nonexistent Metric" ["Income", "Expenses"] [])
      ∧ List.IsInfix (jsonStringifyStrings ["Income", "Expenses"]).data
          (notFoundMsg "Nonexistent Metric" ["Income", "Expenses"] []).data := by
  exact resolveSections_not_found "Nonexistent Metric"
    [⟨"Section", some "Income", [], []⟩, ⟨"Section", some "Expenses", [], []⟩] []
    (by decide) (by decide)

/-- The prefix check on character lists agrees with `List.IsPrefix`. -/
theorem isPrefixOf_eq_true_iff (p : List Char) : ∀ l : List Char,
    (p.isPrefixOf l = true ↔ List.IsPrefix p l) := by
  induction p with
  | nil =>
    intro l
    simp [List.isPrefixOf]
  | cons a as ih =>
    intro l
    cases l with
    | nil => simp [List.isPrefixOf]
    | cons b bs =>
      simp only [List.isPrefixOf, Bool.and_eq_true, beq_iff_eq, List.cons_prefix_cons, ih bs]

/-- The function `containsSub` decides contiguous containment of character lists. -/
theorem containsSub_iff_infix (p : List Char) : ∀ l : List Char,
    (containsSub p l = true ↔ List.IsInfix p l) := by
  intro l
  induction l with
  | nil =>
    simp only [containsSub, List.isEmpty_iff]
    exact ⟨fun h => h ▸ List.infix_refl [], List.eq_nil_of_infix_nil⟩
  | cons c cs ih =>
    simp only [containsSub, Bool.or_eq_true]
    rw [ih, List.infix_cons_iff]
    constructor
    · rintro (hpre | hinf)
      · exact Or.inl ((isPrefixOf_eq_true_iff _ _).mp hpre)
      · exact Or.inr hinf
    · rintro (hpre | hinf)
      · exact Or.inl ((isPrefixOf_eq_true_iff _ _).mpr hpre)
      · exact Or.inr hinf

/-- The model of `s.includes(pat)` decides substring containment. -/
theorem jsIncludes_iff (s pat : String) :
    jsIncludes s pat = true ↔ List.IsInfix pat.data s.data :=
  containsSub_iff_infix _ _

/-- C6 counterexample: for query `Operating Expenses` against a report
whose only section is titled `Expenses`, the spec's resolver (exact
match first, then bidirectional containment) selects the section — the
query contains the title — while the code's single unidirectional pass
selects nothing and resolution fails. -/
theorem resolver_not_bidirectional_counterexample :
    resolveSectionsSpec "Operating Expenses" ["Expenses"] = ["Expenses"]
      ∧ resolveSections "Operating Expenses" [⟨"Section", some "Expenses", [], []⟩] []
        = Except.error (notFoundMsg "Operating Expenses" ["Expenses"] []) := by
  constructor
  · decide
  · rfl

/-- C6 amended: the resolver runs one filter pass in which a section is
selected exactly when its normalized (trimmed, lower-cased) title
contains the normalized query as a substring (title-equals-query being a
special case of containment); the query-contains-title direction is not
implemented, and exact matches do not suppress substring matches. -/
theorem resolver_match_iff (metric t : String) (titles : List String) :
    t ∈ titles.filter (sectionMatches (jsLower (jsTrim metric)))
      ↔ t ∈ titles
          ∧ List.IsInfix (jsLower (jsTrim metric)).data (jsLower (jsTrim t)).data := by
  rw [List.mem_filter]
  refine and_congr_right fun _ => ?_
  unfold sectionMatches
  rw [Bool.or_eq_true, jsIncludes_iff]
  constructor
  · rintro (heq | hinf)
    · rw [eq_of_beq heq]
    · exact hinf
  · exact fun hinf => Or.inr hinf

/-- C3 counterexample: `c3Report` has three period columns (four columns
counting the label column), but its matched section's summary row is
ragged — one value cell — and the extracted series has length 1, not 3. -/
theorem extract_length_counterexample :
    (extractPeriodValuesV1 c3Report "Revenue").length = 1
      ∧ c3Report.columns.length - 1 = 3 := by
  exact ⟨rfl, rfl⟩

/-- C3 amended: the extracted series' length equals the period count
inferred from the section itself — the first child row with more than
one cell, minus its label cell — independent of the report's column
count; rows of any other width are skipped, a section with no multi-cell
row yields the empty series, and extraction is a total function (it
never throws). -/
theorem extract_length_inferred (s : SectionRow) :
    (extractPeriodValues s).length = inferPeriodCount s.rows := by
  unfold extractPeriodValues
  by_cases h : inferPeriodCount s.rows = 0
  · simp [h]
  · simp only [h, if_false]
    by_cases h2 : (s.rows.filter fun r => r.cells.length == inferPeriodCount s.rows + 1).isEmpty
    · simp [h2]
    · simp [h2]

/-- C7: a matched section with zero child rows makes the section-sum
`extractPeriodValues` return the empty series — not a series of nulls —
because the inferred period count is `0`; moreover, whenever the
inferred period count is nonzero, the very row that determined it also
contributes, so the `Array(periodCount).fill(null)` branch meant to mark
"section exists but has no data" can never execute. -/
theorem empty_section_yields_empty_series :
    extractPeriodValues c7EmptySection = []
      ∧ ∀ s : SectionRow, inferPeriodCount s.rows ≠ 0 →
          s.rows.filter (fun r => r.cells.length == inferPeriodCount s.rows + 1) ≠ [] := by
  refine ⟨rfl, ?_⟩
  intro s h
  unfold inferPeriodCount at h ⊢
  cases hf : s.rows.find? (fun r => decide (1 < r.cells.length)) with
  | none =>
    rw [hf] at h
    exact absurd rfl h
  | some r =>
    have hr : r ∈ s.rows := List.mem_of_find?_eq_some hf
    have hp := List.find?_some hf
    have hlen : 1 < r.cells.length := by simpa using hp
    have heq : r.cells.length - 1 + 1 = r.cells.length :=
      Nat.succ_pred_eq_of_pos (Nat.lt_trans Nat.zero_lt_one hlen)
    have hmem : r ∈ s.rows.filter (fun r' => r'.cells.length == r.cells.length - 1 + 1) := by
      rw [List.mem_filter]
      refine ⟨hr, ?_⟩
      rw [heq]
      simp
    exact List.ne_nil_of_mem hmem

/-- Witness for C7's dead-branch fact on a section with one three-cell
row. -/
theorem empty_section_yields_empty_series_witness :
    c7DemoSection.rows.filter
        (fun r => r.cells.length == inferPeriodCount c7DemoSection.rows + 1) ≠ [] :=
  empty_section_yields_empty_series.2 c7DemoSection (by decide)

/-- C8: the section with rows `[10, 20]` and `[5, null]` over two
periods sums to `[15, 20]`, and a null, empty, or unparsable value cell
contributes `0` to its period's sum without erasing the period. -/
theorem section_sum_null_contributes_zero :
    extractPeriodValues c8Section = [some 15, some 20]
      ∧ cellNum none = 0
      ∧ cellNum (some (.str "")) = 0
      ∧ cellNum (some (.str "see note")) = 0 := by
  refine ⟨?_, rfl, by simp [cellNum], by simp [cellNum, jsValToString, stripNumeric, parseFloatQ]⟩
  simp [extractPeriodValues, inferPeriodCount, c8Section, sumAt, cellValueAt, cellNum,
    jsValToString, stripNumeric, parseFloatQ, digitsToNat, isJsSpace,
    List.range_succ]
  try norm_num

/-- C9: if the actuals fetch failed, the reconciler returns the failure
carrying that fetch's message whatever the budget result is (the budget
result is never consulted — the output is the same for every value of
it); if the actuals fetch succeeded and the budget fetch failed, it
returns the failure carrying the budget message regardless of the
actual report's content; in both cases no comparison records are
produced. -/
theorem reconcile_fail_fast :
    (∀ (m e : String) (b : Except String (List Report)),
        reconcileV2 m (Except.error e) b
          = Except.error ("Error fetching actuals: " ++ e))
      ∧ (∀ (m : String) (a : Report) (e : String),
          reconcileV2 m (Except.ok a) (Except.error e)
            = Except.error ("Error fetching budget: " ++ e))
      ∧ (∀ (m e : String) (b : Except String (List Report))
            (recs : List ResultRecord),
          reconcileV2 m (Except.error e) b ≠ Except.ok recs)
      ∧ (∀ (m : String) (a : Report) (e : String) (recs : List ResultRecord),
          reconcileV2 m (Except.ok a) (Except.error e) ≠ Except.ok recs) := by
  refine ⟨fun m e b => rfl, fun m a e => rfl, fun m e b recs => ?_, fun m a e recs => ?_⟩
  · simp [reconcileV2]
  · simp [reconcileV2]

/-- C10: in the summary-row extraction path the numeric parse is guarded
by JavaScript truthiness of the raw cell value, so a cell holding the
number `0` (or the empty string) emits `null` rather than `0`; on the
concrete report the genuinely zero-valued period is reported as missing
data. -/
theorem summary_zero_becomes_null :
    (∀ (r : DataRow) (i : Nat), cellValueAt r i = some (JsVal.num 0) →
        summaryCellValue r i = none)
      ∧ (∀ (r : DataRow) (i : Nat), cellValueAt r i = some (JsVal.str "") →
          summaryCellValue r i = none)
      ∧ extractPeriodValuesV1 c10Report "Sales" = [("2024-01-31", none)] := by
  refine ⟨?_, ?_, ?_⟩
  · intro r i h
    unfold summaryCellValue
    rw [h]
    simp [jsTruthy]
  · intro r i h
    unfold summaryCellValue
    rw [h]
    simp [jsTruthy]
  · rfl

/-- Witness for C10 at the concrete summary row holding the number 0. -/
theorem summary_zero_becomes_null_witness :
    summaryCellValue c10SummaryRow 1 = none :=
  summary_zero_becomes_null.1 c10SummaryRow 1 rfl

/-- The decumulated series, entrywise: the head for index 0, the
difference of adjacent entries beyond. -/
theorem decumulate_entry_lt (s : List (Option ℚ)) (i : Nat) (h : i < s.length) :
    (decumulate s)[i]? =
      some (if i = 0 then (s[0]?).join
            else jsSub ((s[i]?).join) ((s[i - 1]?).join)) := by
  unfold decumulate
  rw [List.getElem?_map, List.getElem?_range h]
  rfl

/-- Base case of the prefix-sum unfolding. -/
theorem optPrefixSum_zero (l : List (Option ℚ)) (x : Option ℚ)
    (hx : l[0]? = some x) :
    optPrefixSum l 0 = optAdd (some 0) x := by
  unfold optPrefixSum
  rw [List.take_succ, hx]
  rfl

/-- Step case of the prefix-sum unfolding. -/
theorem optPrefixSum_succ (l : List (Option ℚ)) (i : Nat) (x : Option ℚ)
    (hx : l[i + 1]? = some x) :
    optPrefixSum l (i + 1) = optAdd (optPrefixSum l i) x := by
  unfold optPrefixSum
  rw [List.take_succ, hx, List.foldl_append]
  rfl

/-- C1: the decumulation step satisfies output[0] = input[0]; for every
i > 0, output[i] is input[i] - input[i-1] exactly when both entries are
numbers and null otherwise (`jsSub` is defined only on two numbers; a
`none` — the NaN the code produces, serialised as null — propagates);
and prefix-summing the decumulated series reproduces the input exactly
on every prefix not broken by a null. -/
theorem decumulate_inverse_prefix_sum (s : List (Option ℚ)) :
    (decumulate s)[0]? = s[0]?
      ∧ (∀ i, 0 < i → i < s.length →
          (decumulate s)[i]?
            = some (jsSub ((s[i]?).join) ((s[i - 1]?).join)))
      ∧ (∀ i, i < s.length → (∀ j, j ≤ i → ((s[j]?).join).isSome) →
          optPrefixSum (decumulate s) i = (s[i]?).join) := by
  refine ⟨?_, ?_, ?_⟩
  · cases s with
    | nil => rfl
    | cons a t =>
      rw [decumulate_entry_lt _ 0 (by simp)]
      simp
  · intro i hi hlen
    rw [decumulate_entry_lt _ i hlen]
    simp [Nat.pos_iff_ne_zero.mp hi]
  · intro i
    induction i with
    | zero =>
      intro h0 hj
      obtain ⟨a, ha⟩ := Option.isSome_iff_exists.mp (hj 0 (le_refl 0))
      have hd : (decumulate s)[0]? = some (some a) := by
        rw [decumulate_entry_lt _ 0 h0, if_pos rfl]
        exact congrArg some ha
      rw [optPrefixSum_zero _ _ hd, ha]
      simp [optAdd]
    | succ n ihn =>
      intro hlen hj
      have hlt : n < s.length := Nat.lt_of_succ_lt hlen
      have ihn' := ihn hlt (fun j hjn => hj j (Nat.le_succ_of_le hjn))
      obtain ⟨a, ha⟩ := Option.isSome_iff_exists.mp (hj n (Nat.le_succ n))
      obtain ⟨b, hb⟩ := Option.isSome_iff_exists.mp (hj (n + 1) (le_refl _))
      have hd : (decumulate s)[n + 1]? = some (some (b - a)) := by
        rw [decumulate_entry_lt _ (n + 1) hlen, if_neg (Nat.succ_ne_zero n)]
        rw [show n + 1 - 1 = n from rfl, ha, hb]
        rfl
      rw [optPrefixSum_succ _ _ _ hd, ihn', ha, hb]
      simp [optAdd]

/-- Witness for C1: decumulating the cumulative series [100, 180, 300]
and prefix-summing the result reproduces the final total 300. -/
theorem decumulate_inverse_prefix_sum_witness :
    optPrefixSum (decumulate [some 100, some 180, some 300]) 2 = some 300 :=
  (decumulate_inverse_prefix_sum [some 100, some 180, some 300]).2.2 2 (by decide)
    (by decide)
